import Mathlib

/-!
Verification of the PyPortal accessibility-map program (`code.py`).

The pure computational core of the program is shallowly embedded below:

* Python float arithmetic is modelled by the real numbers `ℝ` (for the
  transcendental geographic math) and by the rationals `ℚ` (for the pixel
  layout arithmetic of the renderer, which only uses field operations);
* Python `int(...)` truncation toward zero is `pyInt` / `ratPyInt`;
* fallible operations (`math.asin` domain errors, `KeyError` on a missing
  header) are modelled with `Option`;
* the stateful main loop is modelled by an explicit state type `AppState`
  and a step function `loopTick` on it.
-/

open Real (pi)

/-! ## Python primitives -/

/-- Python `int(x)` applied to a float: truncation toward zero. -/
noncomputable def pyInt (x : ℝ) : ℤ := if 0 ≤ x then ⌊x⌋ else -⌊-x⌋

/-- Python `int(x)` truncation toward zero, on rational inputs. -/
def ratPyInt (x : ℚ) : ℤ := if 0 ≤ x then ⌊x⌋ else -⌊-x⌋

/-- Uppercase hexadecimal digit for a value below 16 (as used by
Python `"{:02X}".format`). -/
def hexDigit (n : ℕ) : Char :=
  if n < 10 then Char.ofNat (48 + n) else Char.ofNat (55 + n)

/-- Uppercase hexadecimal digit string of `n`, most significant digit first.
Structural recursion on an explicit fuel argument (`n + 1` steps always
suffice since the value shrinks by a factor of 16 each step). -/
def hexStrAux : ℕ → ℕ → List Char
  | 0, _ => []
  | fuel + 1, n =>
    if n < 16 then [hexDigit n] else hexStrAux fuel (n / 16) ++ [hexDigit (n % 16)]

/-- Uppercase hexadecimal representation of `n`, without padding. -/
def hexStr (n : ℕ) : String := ⟨hexStrAux (n + 1) n⟩

/-- Python `"{:02X}".format n`: uppercase hexadecimal, zero-padded on the
left to a minimum width of two digits (wider for values of 256 and up). -/
def pyFormat02X (n : ℕ) : String := if n < 16 then "0" ++ hexStr n else hexStr n

/-- Python's Unicode-aware `str.isalpha`, modelled exactly on the Basic
Latin, Latin-1 and Latin Extended-A/B ranges: ASCII letters, `ª µ º`,
`À`–`Ö`, `Ø`–`ö`, `ø` through U+024F.  Letters of later Unicode blocks are
not modelled (the development never evaluates the encoder on them); in
particular every modelled code point agrees with CPython. -/
def py_isalpha (c : Char) : Bool :=
  let v := c.toNat
  (65 ≤ v && v ≤ 90) || (97 ≤ v && v ≤ 122) ||
    v == 0xAA || v == 0xB5 || v == 0xBA ||
    (0xC0 ≤ v && v ≤ 0xD6) || (0xD8 ≤ v && v ≤ 0xF6) ||
    (0xF8 ≤ v && v ≤ 0x24F)

/-- Python's Unicode-aware `str.isdigit`, modelled exactly on the Basic
Latin and Latin-1 ranges: the ASCII digits plus the superscripts
`¹ ² ³` (U+00B9, U+00B2, U+00B3).  Digits of later Unicode blocks are not
modelled; every modelled code point agrees with CPython. -/
def py_isdigit (c : Char) : Bool :=
  let v := c.toNat
  (48 ≤ v && v ≤ 57) || v == 0xB2 || v == 0xB3 || v == 0xB9

/-- ASCII lowercasing of a string, as Python `str.lower` behaves on the
ASCII header names this program manipulates. -/
def asciiLower (s : String) : String := ⟨s.data.map Char.toLower⟩

/-- Parse of a decimal digit string, as Python `int(...)` behaves on the
numeric header values in scope (Python `int` additionally tolerates
surrounding whitespace and a sign, which no input here carries; a
non-numeric string raises `ValueError`, modelled by `none`). -/
def parseNat (s : String) : Option ℕ :=
  if s.data ≠ [] ∧ s.data.all Char.isDigit then
    some (s.data.foldl (fun n c => 10 * n + (c.toNat - 48)) 0)
  else none

/-! ## URL / request builder (`url_encode`, `build_url`, `download_file`) -/

/-- Model of `url_encode` from `code.py`: keep a character when Python
`isalpha`/`isdigit` accepts it or it is one of `- _ . ~`, otherwise emit
`%` followed by `"{:02X}".format(ord(char))`. -/
def url_encode (s : String) : String :=
  s.data.foldl
    (fun encoded_string char =>
      if py_isalpha char || py_isdigit char ||
          (char == '-' || char == '_' || char == '.' || char == '~') then
        encoded_string ++ String.singleton char
      else
        encoded_string ++ "%" ++ pyFormat02X char.toNat)
    ""

/-- Model of `build_url` from `code.py`: parameters are an ordered association list
(the iteration order of the Python dict), formatted as
`key=value` pairs joined with `&` after a `?`. -/
def build_url (url : String) (params : List (String × String)) : String :=
  url ++ "?" ++ String.intercalate "&" (params.map fun kv => kv.1 ++ "=" ++ kv.2)

/-- An HTTP response for `download_file`: its headers (name/value pairs in
arrival order) and the chunks its body stream yields before the connection
closes.  Chunk contents are byte lists. -/
structure Response where
  headers : List (String × String)
  chunks : List (List ℕ)

/-- Last-binding lookup in an association list, as a Python dict built by
repeated assignment behaves (a later duplicate key overwrites an earlier
one). -/
def dictGet (l : List (String × String)) (k : String) : Option String :=
  (l.reverse.find? fun p => p.1 == k).map Prod.snd

/-- Content length of a response as `download_file` computes it: header
names lowercased, then the `"content-length"` entry parsed as a natural
number.  `none` models the Python `KeyError`/`ValueError` when the header
is absent or not numeric. -/
def contentLengthOf (resp : Response) : Option ℕ :=
  (dictGet (resp.headers.map fun p => (asciiLower p.1, p.2)) "content-length").bind
    parseNat

/-- The body of `download_file`'s write loop: write each arriving chunk,
decrementing `remaining`, and stop early only when `remaining` hits
exactly zero (Python `if not remaining: break`; a negative `remaining`
is truthy and does not stop the loop).  Returns the chunks written. -/
def writeLoop (remaining : ℤ) : List (List ℕ) → List (List ℕ)
  | [] => []
  | c :: rest =>
    c :: (if remaining - c.length = 0 then [] else writeLoop (remaining - c.length) rest)

/-- Model of `download_file` from `code.py`.  The issued GET request carries no
headers; the `headersArg` parameter is unconditionally shadowed by a fresh
dictionary before use (`headers = {}` in the source) and therefore never
influences anything.  The `chunkSize` parameter only sizes
`response.iter_content`; the arriving chunks are part of the modelled
`Response`.  Result: the list of chunks written to the destination file,
or `none` for the uncaught exception when the `Content-Length` header is
missing or malformed.  There is no check that the stream delivered the
declared number of bytes. -/
def download_file (resp : Response) (chunkSize : ℕ)
    (headersArg : List (String × String)) : Option (List (List ℕ)) :=
  match contentLengthOf resp with
  | none => none
  | some content_length => some (writeLoop (content_length : ℤ) resp.chunks)

/-- Total number of body bytes a response's stream yields. -/
def totalBytes (chunks : List (List ℕ)) : ℕ := (chunks.map List.length).sum

/-! ## Touch hit-testing and the main-loop state machine -/

/-- Model of `icon_touched` from `code.py`: half-open square hit test of side
`size` centred on `(x, y)`, lower bounds inclusive and upper bounds
exclusive on both axes. -/
def icon_touched (x y size : ℚ) (touch : ℚ × ℚ) : Bool :=
  decide (x - size / 2 ≤ touch.1) && decide (touch.1 < x + size / 2) &&
    decide (y - size / 2 ≤ touch.2) && decide (touch.2 < y + size / 2)

/-- The four keys of the `accessibility_options_formatted` table in
`code.py`, which are also the option keys a place record carries. -/
inductive AccessOption where
  | wheelchairAccessibleParking
  | wheelchairAccessibleEntrance
  | wheelchairAccessibleRestroom
  | wheelchairAccessibleSeating
deriving DecidableEq, Repr

/-- Display name and icon of an accessibility option, from the
`accessibility_options_formatted` table (icons are identified by their
bitmap names). -/
def accessibility_options_formatted : AccessOption → String × String
  | .wheelchairAccessibleParking => ("Parking", "parking_icon")
  | .wheelchairAccessibleEntrance => ("Entrance", "entrance_icon")
  | .wheelchairAccessibleRestroom => ("Restroom", "restroom_icon")
  | .wheelchairAccessibleSeating => ("Seating", "seating_icon")

/-- A place record as the main loop uses it: the fields read from the
places-search response plus the derived pixel coordinate stored into the
record at startup. -/
structure Place where
  displayName : String
  formattedAddress : String
  latitude : ℝ
  longitude : ℝ
  accessibilityOptions : List (AccessOption × Bool)
  x : ℤ
  y : ℤ

/-- The mutable state of the main loop: `current_view` (0 = map view,
1 = place-detail view), and the touch tracker `touch_active` /
`release_count`. -/
structure AppState where
  current_view : ℕ
  touch_active : Bool
  release_count : ℕ
deriving DecidableEq, Repr

/-- Value of `release_threshold` from `code.py`. -/
def release_threshold : ℕ := 2

/-- Value of `icon_size` from `code.py`. -/
def icon_size : ℚ := 20

/-- One iteration of the main `while True:` loop of `code.py`, given the
touch sample of this tick (`none` when no touch is present).  Returns the
new state together with the place passed to `update_place_view` on this
tick, if any.  On a touch in map view, the place list is scanned in order
and the first place whose icon the touch hits (while the tracker is
inactive) activates the tracker; a touch that hits no icon leaves the
state unchanged.  On a touch in place view, an inactive tracker is
activated.  On a missing touch with an active tracker, the release counter
is incremented until it reaches `release_threshold`, at which point the
tracker deactivates and the view toggles. -/
def loopTick (places : List Place) (iconSize : ℚ) (st : AppState)
    (touch : Option (ℚ × ℚ)) : AppState × Option Place :=
  match touch with
  | some t =>
    if st.current_view = 0 then
      if st.touch_active then (st, none)
      else
        match places.find? fun p => icon_touched (p.x : ℚ) (p.y : ℚ) iconSize t with
        | some p => ({ st with touch_active := true, release_count := 0 }, some p)
        | none => (st, none)
    else
      if st.touch_active then (st, none)
      else ({ st with touch_active := true, release_count := 0 }, none)
  | none =>
    if st.touch_active then
      if release_threshold ≤ st.release_count then
        ({ st with current_view := if st.current_view = 0 then 1 else 0,
                   touch_active := false }, none)
      else ({ st with release_count := st.release_count + 1 }, none)
    else (st, none)

/-- State after one tick, discarding the render event. -/
def stepState (places : List Place) (iconSize : ℚ) (st : AppState)
    (touch : Option (ℚ × ℚ)) : AppState :=
  (loopTick places iconSize st touch).1

/-- Number of ticks of the given input trace on which the view toggles. -/
def countToggles (places : List Place) (iconSize : ℚ) :
    AppState → List (Option (ℚ × ℚ)) → ℕ
  | _, [] => 0
  | st, i :: rest =>
    (if (stepState places iconSize st i).current_view ≠ st.current_view then 1 else 0) +
      countToggles places iconSize (stepState places iconSize st i) rest

/-! ## Geographic math (`map_range`, `calc_pixel_coordinate`, `geo_bounds`,
`haversine_distance`) over the real numbers -/

/-- Python `math.radians`. -/
noncomputable def radians (x : ℝ) : ℝ := x * pi / 180

/-- Python `math.degrees`. -/
noncomputable def degrees (x : ℝ) : ℝ := x * 180 / pi

/-- Python `math.atan2 y x`. -/
noncomputable def atan2 (y x : ℝ) : ℝ :=
  if 0 < x then Real.arctan (y / x)
  else if x < 0 then
    (if 0 ≤ y then Real.arctan (y / x) + pi else Real.arctan (y / x) - pi)
  else (if 0 < y then pi / 2 else if y < 0 then -(pi / 2) else 0)

/-- Model of `map_range` from `code.py`: linear interpolation of `value` from the
input range to the output range. -/
noncomputable def map_range (value in_min in_max out_min out_max : ℝ) : ℝ :=
  out_min + ((value - in_min) / (in_max - in_min)) * (out_max - out_min)

/-- Model of `calc_pixel_coordinate` from `code.py`: the x pixel coordinate is the
linear interpolation of the longitude over the box's longitude range into
`[0, image_width]`; the y pixel coordinate linearly interpolates the
Mercator transform `ln (tan (π/4 + lat/2))` of the latitude over the
reversed range `[merc lat_max, merc lat_min]` into `[0, image_height]`
(north maps to smaller y).  Both outputs pass through Python `int`,
truncation toward zero. -/
noncomputable def calc_pixel_coordinate (lat lon : ℝ) (image_width image_height : ℤ)
    (lat_min lat_max lon_min lon_max : ℝ) : ℤ × ℤ :=
  let x := map_range lon lon_min lon_max 0 (image_width : ℝ)
  let merc_lat := Real.log (Real.tan (pi / 4 + radians lat / 2))
  let merc_max := Real.log (Real.tan (pi / 4 + radians lat_max / 2))
  let merc_min := Real.log (Real.tan (pi / 4 + radians lat_min / 2))
  let y := map_range merc_lat merc_max merc_min 0 (image_height : ℝ)
  (pyInt x, pyInt y)

/-- Model of `geo_bounds` from `code.py`, returning
`(max_lat, min_lat, max_lon, min_lon)` in degrees.  The two `none` cases
model the Python exceptions on the `math.asin(math.sin(...) / math.cos(...))`
line: `ZeroDivisionError` when `cos` of the centre latitude is zero, and
the `math domain error` of `asin` when its argument leaves `[-1, 1]`. -/
noncomputable def geo_bounds (lat lon radius : ℝ) (ratio : ℝ) : Option (ℝ × ℝ × ℝ × ℝ) :=
  let EARTH_RADIUS : ℝ := 6378.1
  let rad_lat := radians lat
  let rad_lon := radians lon
  let rad_radius := radius / EARTH_RADIUS
  if Real.cos rad_lat = 0 then none
  else if 1 < |Real.sin rad_radius / Real.cos rad_lat| then none
  else
    let delta_lat0 := rad_radius
    let delta_lon0 := Real.arcsin (Real.sin rad_radius / Real.cos rad_lat)
    let delta_lat := if ratio < 1 then delta_lat0 / ratio else delta_lat0
    let delta_lon := if ratio < 1 then delta_lon0 else delta_lon0 * ratio
    some (degrees (rad_lat + delta_lat), degrees (rad_lat - delta_lat),
      degrees (rad_lon + delta_lon), degrees (rad_lon - delta_lon))

/-- Model of `haversine_distance` from `code.py`: the haversine formula with Earth
radius 6371000 m, the central angle computed as
`2 * atan2 (sqrt a) (sqrt (1 - a))`. -/
noncomputable def haversine_distance (lat1 lon1 lat2 lon2 : ℝ) : ℝ :=
  let earth_radius : ℝ := 6371000
  let rlat1 := radians lat1
  let rlat2 := radians lat2
  let rlon1 := radians lon1
  let rlon2 := radians lon2
  let dlat := rlat2 - rlat1
  let dlon := rlon2 - rlon1
  let a := Real.sin (dlat / 2) ^ 2 + Real.cos rlat1 * Real.cos rlat2 * Real.sin (dlon / 2) ^ 2
  let c := 2 * atan2 (Real.sqrt a) (Real.sqrt (1 - a))
  earth_radius * c

/-! ## The place-detail renderer (`update_place_view`) -/

/-- Python `s.split(",")`: the comma-separated segments of `s` (an empty
string yields the single segment `""`, as in Python). -/
def pySplitComma (s : String) : List String :=
  (s.data.splitOn ',').map fun l => String.mk l

/-- Width of the display after the 270-degree rotation configured at
startup (the PyPortal panel is 320 x 240; rotated it is 240 wide and 320
tall, matching the literals 120, 210 and 240 used by the layout code). -/
def display_width : ℕ := 240

/-- Height of the display after the 270-degree rotation. -/
def display_height : ℕ := 320

/-- A drawable primitive appended to `place_info_group`.  Text labels
carry their anchor point and anchored position (colour and font are
styling constants and are not modelled); rectangles carry position and
size; tile sprites carry the bitmap name and their integer position. -/
inductive Prim where
  | textP (anchor : ℚ × ℚ) (pos : ℚ × ℚ) (text : String)
  | rectP (x y width height : ℚ)
  | tileP (icon : String) (x y : ℤ)
deriving DecidableEq, Repr

/-- Body of the `for i, option in enumerate(place["accessibilityOptions"])`
loop of `update_place_view`: for pair `iob = (i, (option, value))` with a
true value, the four primitives of one accessibility row (background
rectangle, centred label, leading option icon, trailing check icon) at
vertical offset `access_offset + i * 58`; for a false value, nothing.
The row height is `access_height = 58`, and the two icon sprites pass
their y position through Python `int`. -/
def accessRow (access_offset : ℚ) (iob : ℕ × (AccessOption × Bool)) : List Prim :=
  let access_height : ℚ := 58
  if iob.2.2 = true then
    let option_name := (accessibility_options_formatted iob.2.1).1
    let option_icon := (accessibility_options_formatted iob.2.1).2
    let rowY := access_offset + (iob.1 : ℚ) * access_height
    [Prim.rectP 15 rowY ((display_width : ℚ) - 30) (access_height - 5),
      Prim.textP (1/2, 1/2) (120, rowY + (access_height - 5) / 2) option_name,
      Prim.tileP option_icon 25 (ratPyInt (rowY + (access_height - 5) / 2 - 16)),
      Prim.tileP "check_icon" (240 - 15 - 32 - 10)
        (ratPyInt (rowY + (access_height - 5) / 2 - 16))]
  else []

/-- Model of `update_place_view` from `code.py`, as the ordered list of drawable
primitives appended to the (previously emptied) `place_info_group`.
`wrap` stands for the library word-wrapper
`wrap_text_to_pixels(name, 210, font)`, an external collaborator the
function is parametric in; `center_lat` / `center_lon` are the module
globals the distance is measured from.  Name lines are stacked from
`y = 15` with line height 20; the address line follows at offset 3 below
them; the accessibility rows follow 20 below that, via `accessRow`. -/
noncomputable def update_place_view (wrap : String → List String)
    (center_lat center_lon : ℝ) (place : Place) : List Prim :=
  let name_offset : ℚ := 15
  let name_lines := wrap place.displayName
  let namePrims := name_lines.enum.map fun il =>
    Prim.textP (1/2, 0) (120, name_offset + (il.1 : ℚ) * 20) il.2
  let distance : ℤ :=
    pyInt (haversine_distance center_lat center_lon place.latitude place.longitude)
  let address_offset : ℚ := name_offset + (name_lines.length : ℚ) * 20 + 3
  let addrPrim := Prim.textP (1/2, 0) (120, address_offset)
    (((pySplitComma place.formattedAddress).headD "") ++ " | " ++ toString distance ++ " m")
  let access_offset : ℚ := address_offset + 20
  let rows := place.accessibilityOptions.enum.flatMap (accessRow access_offset)
  namePrims ++ [addrPrim] ++ rows

/-- The y coordinates of the row background rectangles of a primitive
list, in order. -/
def rectYs (l : List Prim) : List ℚ :=
  l.filterMap fun p =>
    match p with
    | .rectP _ y _ _ => some y
    | _ => none

/-- The texts of the centred (anchor `(1/2, 1/2)`) row labels of a
primitive list, in order. -/
def rowLabels (l : List Prim) : List String :=
  l.filterMap fun p =>
    match p with
    | .textP a _ t => if a = ((1:ℚ)/2, (1:ℚ)/2) then some t else none
    | _ => none

/-! ## C10: `build_url` with an empty parameter mapping -/

/-- C10: for every base URL, `build_url` appends a `?` even when the
parameter mapping is empty: the result is the base followed by a trailing
question mark and no `key=value` pairs. -/
theorem build_url_empty_params (url : String) :
    build_url url [] = url ++ "?" := by
  show url ++ "?" ++ String.intercalate "&" [] = url ++ "?"
  rw [show String.intercalate "&" [] = "" from rfl]
  simp

/-! ## C9: `download_file` ignores its `headers` parameter -/

/-- C9: the behaviour of `download_file` is independent of its `headers`
argument — for any two calls identical except for that argument, the
result (and so the bytes written) is identical, because the parameter is
shadowed by a fresh empty dict before use and never reaches the GET
request. -/
theorem download_file_headers_independent (resp : Response) (cs : ℕ)
    (h1 h2 : List (String × String)) :
    download_file resp cs h1 = download_file resp cs h2 := rfl

/-! ## C2: `download_file` on a stream that ends early -/

/-- C2 counterexample: with `Content-Length: 10` and a stream that closes
after a single 4-byte chunk, `download_file` returns normally (no
`TransferError` — the code has no such check) having written only 4 of
the 10 declared bytes. -/
theorem download_file_short_cex :
    download_file ⟨[("Content-Length", "10")], [[1, 2, 3, 4]]⟩ 4096 [] =
      some [[1, 2, 3, 4]] ∧ totalBytes [[1, 2, 3, 4]] < 10 := by
  exact ⟨by decide, by decide⟩

/-- Helper: when the stream delivers fewer bytes than `remaining`, the
write loop's early-exit test never fires and every chunk is written. -/
lemma writeLoop_all (chunks : List (List ℕ)) (r : ℤ)
    (h : (totalBytes chunks : ℤ) < r) : writeLoop r chunks = chunks := by
  induction chunks generalizing r with
  | nil => rfl
  | cons c rest ih =>
    have hsum : totalBytes (c :: rest) = c.length + totalBytes rest := by
      simp [totalBytes]
    rw [hsum] at h
    push_cast at h
    have hne : ¬(r - (c.length : ℤ) = 0) := by omega
    simp only [writeLoop, if_neg hne]
    rw [ih (r - c.length) (by omega)]

/-- C2 amended: when the connection closes before `Content-Length` bytes
have been received, `download_file` raises nothing and returns normally,
having written exactly the chunks the stream delivered (fewer bytes than
declared); its only failure mode is a missing or malformed
`Content-Length` header. -/
theorem download_file_short_returns (resp : Response) (cs : ℕ)
    (ha : List (String × String)) (cl : ℕ)
    (hcl : contentLengthOf resp = some cl)
    (hshort : totalBytes resp.chunks < cl) :
    download_file resp cs ha = some resp.chunks := by
  simp only [download_file, hcl]
  rw [writeLoop_all _ _ (by exact_mod_cast hshort)]

/-- Witness for `download_file_short_returns` at a concrete short
stream. -/
theorem download_file_short_returns_witness :
    download_file ⟨[("Content-Length", "9")], [[1, 2], [3]]⟩ 4096 [] =
      some [[1, 2], [3]] :=
  download_file_short_returns ⟨[("Content-Length", "9")], [[1, 2], [3]]⟩ 4096 []
    9 (by decide) (by decide)

/-! ## C8: `url_encode` character classes -/

/-- C8 counterexample: `é` (U+00E9) is not an ASCII letter, yet Python's
Unicode `isalpha` accepts it, so `url_encode` leaves it unchanged instead
of producing `%E9`; and `€` (U+20AC) is encoded as `%20AC`, four hex
digits rather than the claimed two. -/
theorem url_encode_cex :
    url_encode "é" = "é" ∧ "é" ≠ "%E9" ∧
    url_encode "€" = "%20AC" ∧ ¬("%20AC".length = 3) := by decide

/-- Per-character step of `url_encode`, factored out of its fold. -/
def urlEncodeChar (c : Char) : String :=
  if py_isalpha c || py_isdigit c ||
      (c == '-' || c == '_' || c == '.' || c == '~') then
    String.singleton c
  else "%" ++ pyFormat02X c.toNat

/-- Per-character encoder written to the specification's words, for the
refinement comparison of C8: ASCII letters (codes 65–90 and 97–122), ASCII
digits (48–57) and `- _ . ~` are kept; every other character becomes `%`
followed by exactly two uppercase hexadecimal digits of its ordinal. -/
def specEncodeAsciiChar (c : Char) : String :=
  if (65 ≤ c.toNat && c.toNat ≤ 90) || (97 ≤ c.toNat && c.toNat ≤ 122) ||
      (48 ≤ c.toNat && c.toNat ≤ 57) ||
      (c == '-' || c == '_' || c == '.' || c == '~') then
    String.singleton c
  else "%" ++ String.mk [hexDigit (c.toNat / 16), hexDigit (c.toNat % 16)]

/-- Helper: below 256, Python `"{:02X}"` produces exactly the two hex
digits of the value. -/
lemma pyFormat02X_eq_pair (n : ℕ) (h : n < 256) :
    pyFormat02X n = String.mk [hexDigit (n / 16), hexDigit (n % 16)] := by
  by_cases h16 : n < 16
  · have hd : n / 16 = 0 := Nat.div_eq_of_lt h16
    have hm : n % 16 = n := Nat.mod_eq_of_lt h16
    rw [pyFormat02X, if_pos h16, hd, hm, hexStr]
    have e1 : hexStrAux (n + 1) n = [hexDigit n] := by
      simp [hexStrAux, h16]
    rw [e1, show hexDigit 0 = '0' from rfl]
    rfl
  · rw [pyFormat02X, if_neg h16, hexStr]
    have h1 : n / 16 < 16 := by omega
    have e1 : hexStrAux (n + 1) n = hexStrAux n (n / 16) ++ [hexDigit (n % 16)] := by
      simp [hexStrAux, h16]
    have e2 : hexStrAux n (n / 16) = [hexDigit (n / 16)] := by
      obtain ⟨m, rfl⟩ : ∃ m, n = m + 1 := ⟨n - 1, by omega⟩
      simp [hexStrAux, h1]
    rw [e1, e2]
    rfl

/-- Helper: on ASCII code points the Python character classes coincide
with the ASCII classes of the specification. -/
lemma urlEncodeChar_ascii (c : Char) (h : c.toNat < 128) :
    urlEncodeChar c = specEncodeAsciiChar c := by
  have key : (py_isalpha c || py_isdigit c ||
      (c == '-' || c == '_' || c == '.' || c == '~')) =
      ((65 ≤ c.toNat && c.toNat ≤ 90) || (97 ≤ c.toNat && c.toNat ≤ 122) ||
        (48 ≤ c.toNat && c.toNat ≤ 57) ||
        (c == '-' || c == '_' || c == '.' || c == '~')) := by
    cases hb : (c == '-' || c == '_' || c == '.' || c == '~') with
    | true => simp [py_isalpha, py_isdigit, hb]
    | false =>
      simp only [py_isalpha, py_isdigit, hb, Bool.or_false]
      rw [Bool.eq_iff_iff]
      simp only [Bool.or_eq_true, Bool.and_eq_true, decide_eq_true_eq, beq_iff_eq]
      omega
  rw [urlEncodeChar, specEncodeAsciiChar, key]
  by_cases hc : ((65 ≤ c.toNat && c.toNat ≤ 90) || (97 ≤ c.toNat && c.toNat ≤ 122) ||
      (48 ≤ c.toNat && c.toNat ≤ 57) ||
      (c == '-' || c == '_' || c == '.' || c == '~')) = true
  · rw [if_pos hc, if_pos hc]
  · rw [if_neg hc, if_neg hc, pyFormat02X_eq_pair _ (by omega)]

/-- Helper: folding string append from an accumulator factors the
accumulator out front. -/
lemma string_foldl_append (l : List String) (a : String) :
    l.foldl (fun r s => r ++ s) a = a ++ l.foldl (fun r s => r ++ s) "" := by
  induction l generalizing a with
  | nil => simp
  | cons x xs ih =>
    simp only [List.foldl_cons]
    rw [ih (a ++ x), ih ("" ++ x)]
    simp [String.append_assoc]

/-- Helper: `String.join` unfolds one element at a time. -/
lemma string_join_cons (x : String) (xs : List String) :
    String.join (x :: xs) = x ++ String.join xs := by
  show (x :: xs).foldl (fun r s => r ++ s) "" = x ++ xs.foldl (fun r s => r ++ s) ""
  simp only [List.foldl_cons]
  rw [string_foldl_append xs ("" ++ x)]
  simp

/-- Helper: `url_encode`'s fold is the concatenation of the
per-character encodings. -/
lemma url_encode_foldl (l : List Char) (a : String) :
    l.foldl
      (fun encoded_string char =>
        if py_isalpha char || py_isdigit char ||
            (char == '-' || char == '_' || char == '.' || char == '~') then
          encoded_string ++ String.singleton char
        else
          encoded_string ++ "%" ++ pyFormat02X char.toNat)
      a = a ++ String.join (l.map urlEncodeChar) := by
  induction l generalizing a with
  | nil => simp [String.join]
  | cons c cs ih =>
    simp only [List.foldl_cons, List.map_cons]
    rw [ih]
    rw [show String.join (urlEncodeChar c :: cs.map urlEncodeChar) =
      urlEncodeChar c ++ String.join (cs.map urlEncodeChar) from ?_]
    · by_cases hc : (py_isalpha c || py_isdigit c ||
          (c == '-' || c == '_' || c == '.' || c == '~')) = true
      · rw [if_pos hc, urlEncodeChar, if_pos hc, String.append_assoc]
      · rw [if_neg hc, urlEncodeChar, if_neg hc]
        simp [String.append_assoc]
    · exact string_join_cons _ _

/-- C8 amended: `url_encode` keeps exactly the characters Python's
Unicode `isalpha`/`isdigit` accepts plus `- _ . ~` (so non-ASCII letters
such as `é` also pass unchanged), and encodes other characters as `%`
followed by at least two uppercase hex digits of the code point (more for
code points at 256 and above).  Restricted to ASCII strings the original
claim holds: the encoding is exactly the specification's per-character
ASCII encoding, keeping ASCII alphanumerics and `- _ . ~` and replacing
every other character by a two-digit uppercase `%XX`. -/
theorem url_encode_ascii (s : String) (h : ∀ c ∈ s.data, c.toNat < 128) :
    url_encode s = String.join (s.data.map specEncodeAsciiChar) := by
  rw [url_encode, url_encode_foldl]
  rw [show ("" : String) ++ String.join (s.data.map urlEncodeChar) =
    String.join (s.data.map urlEncodeChar) from by simp]
  congr 1
  exact List.map_congr_left fun c hc => urlEncodeChar_ascii c (h c hc)

/-- Witness for `url_encode_ascii` on the specification's own example
string `"a b"` (whose encoding is `"a%20b"`). -/
theorem url_encode_ascii_witness :
    ((∀ c ∈ ("a b").data, c.toNat < 128) ∧
      url_encode "a b" = String.join (("a b").data.map specEncodeAsciiChar)) ∧
    url_encode "a b" = "a%20b" :=
  ⟨⟨by decide, url_encode_ascii "a b" (by decide)⟩, by decide⟩

/-! ## C1 and C5: the touch/view state machine -/

/-- State of the main loop after processing a trace of touch samples. -/
def runTicks (places : List Place) (iconSize : ℚ) (st : AppState)
    (l : List (Option (ℚ × ℚ))) : AppState :=
  l.foldl (stepState places iconSize) st

/-- A concrete place whose icon is centred at pixel (100, 100), used by
the concrete state-machine facts below. -/
def placeA : Place :=
  { displayName := "Place A", formattedAddress := "A St", latitude := 0,
    longitude := 0, accessibilityOptions := [], x := 100, y := 100 }

/-- C5 counterexample: in map view, a present touch at (0, 0) that hits
no icon does NOT activate the tracker — the state is completely
unchanged, contradicting the claim that every touch tick with an idle
tracker transitions it to Active(0). -/
theorem map_touch_miss_cex :
    (loopTick [placeA] icon_size ⟨0, false, 0⟩ (some (0, 0))).1 =
      ⟨0, false, 0⟩ := by
  have hf : List.find?
      (fun q => icon_touched (q.x : ℚ) (q.y : ℚ) icon_size (0, 0)) [placeA] = none := by
    rw [List.find?]
    norm_num [placeA, icon_touched, icon_size]
  show (loopTick [placeA] icon_size ⟨0, false, 0⟩ (some (0, 0))).1 = ⟨0, false, 0⟩
  simp only [loopTick, hf]
  simp

/-- C5 amended: on a tick with a touch present and the tracker idle, the
view never changes; in place-detail view the tracker becomes Active(0);
in map view the places are hit-tested in list order with the half-open
square test `[c - size/2, c + size/2)` on both axes, and only on the
first match does the tracker become Active(0) with `update_place_view`
invoked on the matched place — when no icon is hit, the tracker stays
idle and nothing is rendered. -/
theorem touch_press_transition (places : List Place) (iconSize : ℚ)
    (st : AppState) (t : ℚ × ℚ) (hIdle : st.touch_active = false) :
    (∀ x y size touch, icon_touched x y size touch = true ↔
        (x - size / 2 ≤ touch.1 ∧ touch.1 < x + size / 2 ∧
          y - size / 2 ≤ touch.2 ∧ touch.2 < y + size / 2)) ∧
    (st.current_view ≠ 0 →
      loopTick places iconSize st (some t) =
        ({ current_view := st.current_view, touch_active := true,
           release_count := 0 }, none)) ∧
    (st.current_view = 0 →
      (∀ p, (places.find? fun q => icon_touched (q.x : ℚ) (q.y : ℚ) iconSize t) = some p →
        loopTick places iconSize st (some t) =
          ({ current_view := 0, touch_active := true, release_count := 0 }, some p)) ∧
      ((places.find? fun q => icon_touched (q.x : ℚ) (q.y : ℚ) iconSize t) = none →
        loopTick places iconSize st (some t) = (st, none))) := by
  refine ⟨?_, ?_, ?_⟩
  · intro x y size touch
    simp [icon_touched, and_assoc]
  · intro hv
    simp [loopTick, hv, hIdle]
  · intro hv
    constructor
    · intro p hp
      simp [loopTick, hv, hIdle, hp]
    · intro hp
      simp [loopTick, hv, hIdle, hp]

/-- Witness for `touch_press_transition`: a touch at (100, 100) on
`placeA`'s icon activates the tracker and renders `placeA`. -/
theorem touch_press_transition_witness :
    loopTick [placeA] icon_size ⟨0, false, 0⟩ (some (100, 100)) =
      ({ current_view := 0, touch_active := true, release_count := 0 },
        some placeA) :=
  ((touch_press_transition [placeA] icon_size ⟨0, false, 0⟩ (100, 100) rfl).2.2
    rfl).1 placeA
    (by rw [List.find?]; norm_num [placeA, icon_touched, icon_size])

/-- Helper: a tick with a touch present never changes the view. -/
lemma touch_keeps_view (places : List Place) (iconSize : ℚ) (st : AppState)
    (t : ℚ × ℚ) :
    (stepState places iconSize st (some t)).current_view = st.current_view := by
  by_cases h0 : st.current_view = 0
  · by_cases ha : st.touch_active = true
    · simp [stepState, loopTick, h0, ha]
    · cases hfind : places.find? fun p => icon_touched (p.x : ℚ) (p.y : ℚ) iconSize t with
      | none => simp [stepState, loopTick, h0, ha, hfind]
      | some p => simp [stepState, loopTick, h0, ha, hfind]
  · by_cases ha : st.touch_active = true <;> simp [stepState, loopTick, h0, ha]

/-- Helper: a touch tick from an idle tracker that ends with the tracker
active yields exactly Active(0) with the view unchanged. -/
lemma activation_state (places : List Place) (iconSize : ℚ) (st : AppState)
    (t : ℚ × ℚ) (hIdle : st.touch_active = false)
    (hAct : (stepState places iconSize st (some t)).touch_active = true) :
    stepState places iconSize st (some t) =
      { current_view := st.current_view, touch_active := true, release_count := 0 } := by
  by_cases h0 : st.current_view = 0
  · cases hfind : places.find? fun p => icon_touched (p.x : ℚ) (p.y : ℚ) iconSize t with
    | none =>
      exfalso
      simp [stepState, loopTick, h0, hIdle, hfind] at hAct
    | some p => simp [stepState, loopTick, h0, hIdle, hfind]
  · simp [stepState, loopTick, h0, hIdle]

/-- Helper: a no-touch tick with an inactive tracker changes nothing. -/
lemma none_inactive (places : List Place) (iconSize : ℚ) (st : AppState)
    (h : st.touch_active = false) : stepState places iconSize st none = st := by
  simp [stepState, loopTick, h]

/-- Helper: a no-touch tick below the release threshold increments the
release counter. -/
lemma none_count (places : List Place) (iconSize : ℚ) (st : AppState)
    (h : st.touch_active = true) (hlt : st.release_count < release_threshold) :
    stepState places iconSize st none =
      { st with release_count := st.release_count + 1 } := by
  simp [stepState, loopTick, h, Nat.not_le.mpr hlt]

/-- Helper: a no-touch tick at or above the release threshold
deactivates the tracker and toggles the view. -/
lemma none_toggle (places : List Place) (iconSize : ℚ) (st : AppState)
    (h : st.touch_active = true) (hge : release_threshold ≤ st.release_count) :
    stepState places iconSize st none =
      { st with current_view := if st.current_view = 0 then 1 else 0,
                touch_active := false } := by
  simp [stepState, loopTick, h, hge]

/-- Helper: one-step unfolding of `countToggles`. -/
lemma countToggles_cons (places : List Place) (iconSize : ℚ) (st : AppState)
    (i : Option (ℚ × ℚ)) (rest : List (Option (ℚ × ℚ))) :
    countToggles places iconSize st (i :: rest) =
      (if (stepState places iconSize st i).current_view ≠ st.current_view then 1 else 0) +
        countToggles places iconSize (stepState places iconSize st i) rest := rfl

/-- Helper: from an inactive tracker, a run of no-touch ticks never
toggles the view. -/
lemma nones_inactive_zero (places : List Place) (iconSize : ℚ) (m : ℕ)
    (st : AppState) (h : st.touch_active = false) :
    countToggles places iconSize st (List.replicate m none) = 0 := by
  induction m with
  | zero => rfl
  | succ n ih =>
    rw [List.replicate_succ, countToggles_cons, none_inactive places iconSize st h]
    simp [ih]

/-- Helper: a run of no-touch ticks toggles the view at most once,
whatever the starting state. -/
lemma nones_le_one (places : List Place) (iconSize : ℚ) (m : ℕ) (st : AppState) :
    countToggles places iconSize st (List.replicate m none) ≤ 1 := by
  induction m generalizing st with
  | zero => simp [countToggles]
  | succ n ih =>
    rw [List.replicate_succ, countToggles_cons]
    cases ha : st.touch_active with
    | false =>
      rw [none_inactive places iconSize st ha]
      simp [nones_inactive_zero places iconSize n st ha]
    | true =>
      by_cases hge : release_threshold ≤ st.release_count
      · rw [none_toggle places iconSize st ha hge]
        have hz : countToggles places iconSize
            { st with current_view := if st.current_view = 0 then 1 else 0,
                      touch_active := false } (List.replicate n none) = 0 :=
          nones_inactive_zero places iconSize n _ rfl
        rw [hz]
        by_cases h0 : st.current_view = 0
        · simp [h0]
        · simp [h0, Ne.symm h0]
      · rw [none_count places iconSize st ha (Nat.not_le.mp hge)]
        simpa using ih { st with release_count := st.release_count + 1 }

/-- Helper: a run of touch-present ticks never toggles the view. -/
lemma touches_zero (places : List Place) (iconSize : ℚ) (k : ℕ) (st : AppState)
    (t : ℚ × ℚ) :
    countToggles places iconSize st (List.replicate k (some t)) = 0 := by
  induction k generalizing st with
  | zero => rfl
  | succ n ih =>
    rw [List.replicate_succ, countToggles_cons, touch_keeps_view]
    simp [ih]

/-- Helper: toggle counts add over concatenated traces. -/
lemma countToggles_append (places : List Place) (iconSize : ℚ) (st : AppState)
    (l1 l2 : List (Option (ℚ × ℚ))) :
    countToggles places iconSize st (l1 ++ l2) =
      countToggles places iconSize st l1 +
        countToggles places iconSize (runTicks places iconSize st l1) l2 := by
  induction l1 generalizing st with
  | nil => simp [countToggles, runTicks]
  | cons i rest ih =>
    rw [List.cons_append, countToggles_cons, countToggles_cons, ih]
    simp [runTicks, Nat.add_assoc]

/-- C1: with `release_threshold = 2`, a touch tick that activates the
tracker followed by three no-touch ticks leaves the view unchanged after
the first two no-touch ticks and toggles it exactly once, on the third;
and for every press/release cycle — any number of consecutive
touch-present ticks followed by any number of no-touch ticks, from any
state — at most one view toggle occurs. -/
theorem touch_release_cycle (places : List Place) (iconSize : ℚ) (st : AppState)
    (t : ℚ × ℚ) (hIdle : st.touch_active = false)
    (hAct : (stepState places iconSize st (some t)).touch_active = true) :
    ((runTicks places iconSize st [some t]).current_view = st.current_view ∧
      (runTicks places iconSize st [some t, none]).current_view = st.current_view ∧
      (runTicks places iconSize st [some t, none, none]).current_view = st.current_view ∧
      (runTicks places iconSize st [some t, none, none, none]).current_view =
        (if st.current_view = 0 then 1 else 0) ∧
      countToggles places iconSize st [some t, none, none, none] = 1) ∧
    ∀ (st2 : AppState) (k m : ℕ) (t2 : ℚ × ℚ),
      countToggles places iconSize st2
        (List.replicate k (some t2) ++ List.replicate m none) ≤ 1 := by
  have s1 : stepState places iconSize st (some t) =
      ⟨st.current_view, true, 0⟩ := activation_state places iconSize st t hIdle hAct
  have s2 : stepState places iconSize ⟨st.current_view, true, 0⟩ none =
      ⟨st.current_view, true, 1⟩ :=
    (none_count places iconSize ⟨st.current_view, true, 0⟩ rfl
      (by norm_num [release_threshold])).trans rfl
  have s3 : stepState places iconSize ⟨st.current_view, true, 1⟩ none =
      ⟨st.current_view, true, 2⟩ :=
    (none_count places iconSize ⟨st.current_view, true, 1⟩ rfl
      (by norm_num [release_threshold])).trans rfl
  have s4 : stepState places iconSize ⟨st.current_view, true, 2⟩ none =
      ⟨if st.current_view = 0 then 1 else 0, false, 2⟩ :=
    (none_toggle places iconSize ⟨st.current_view, true, 2⟩ rfl
      (by norm_num [release_threshold])).trans rfl
  refine ⟨⟨?_, ?_, ?_, ?_, ?_⟩, ?_⟩
  · simp only [runTicks, List.foldl_cons, List.foldl_nil, s1]
  · simp only [runTicks, List.foldl_cons, List.foldl_nil, s1, s2]
  · simp only [runTicks, List.foldl_cons, List.foldl_nil, s1, s2, s3]
  · simp only [runTicks, List.foldl_cons, List.foldl_nil, s1, s2, s3, s4]
  · simp only [countToggles_cons, countToggles, s1, s2, s3, s4]
    by_cases h0 : st.current_view = 0 <;> simp [h0, Ne.symm]
  · intro st2 k m t2
    rw [countToggles_append, touches_zero]
    simpa using nones_le_one places iconSize m
      (runTicks places iconSize st2 (List.replicate k (some t2)))

/-- Witness for `touch_release_cycle` at the concrete activating touch
on `placeA`. -/
theorem touch_release_cycle_witness :
    countToggles [placeA] icon_size ⟨0, false, 0⟩
      [some (100, 100), none, none, none] = 1 :=
  (touch_release_cycle [placeA] icon_size ⟨0, false, 0⟩ (100, 100) rfl
    (by
      have hf : List.find?
          (fun q => icon_touched (q.x : ℚ) (q.y : ℚ) icon_size (100, 100)) [placeA] =
          some placeA := by
        rw [List.find?]
        norm_num [placeA, icon_touched, icon_size]
      show (loopTick [placeA] icon_size ⟨0, false, 0⟩
        (some (100, 100))).1.touch_active = true
      simp only [loopTick, hf]
      rfl)).1.2.2.2.2

/-! ## C4 and C6: the place-detail renderer -/

/-- A concrete place whose name wraps to two lines (under `wrapB`) and
whose accessibility mapping lists seating (true), parking (false) and
entrance (true), in that order. -/
def placeB : Place :=
  { displayName := "Main Street Cafe", formattedAddress := "1 Main St, Town",
    latitude := 0, longitude := 0,
    accessibilityOptions :=
      [(.wheelchairAccessibleSeating, true),
        (.wheelchairAccessibleParking, false),
        (.wheelchairAccessibleEntrance, true)],
    x := 0, y := 0 }

/-- A concrete stand-in for the library word-wrapper, producing two
lines. -/
def wrapB : String → List String := fun _ => ["Main Street", "Cafe"]

/-- C4 counterexample: for `placeB` (two name lines, exactly two true
options), the two emitted rows sit at y offsets 78 and 194 — NOT at the
consecutive offsets 78 and 136 the claim requires — because the row
index is the `enumerate` index over the whole mapping, skipped false
entries included; and the rows come out in the place mapping's own order
(Seating before Entrance), not in the fixed table order (which would put
Entrance first). -/
theorem update_place_view_rows_cex :
    rectYs (update_place_view wrapB 0 0 placeB) = [78, 194] ∧
      ([78, 194] : List ℚ) ≠ [78, 78 + 58] ∧
    rowLabels (update_place_view wrapB 0 0 placeB) = ["Seating", "Entrance"] ∧
      (["Seating", "Entrance"] : List String) ≠ ["Entrance", "Seating"] := by
  refine ⟨?_, by norm_num, ?_, by decide⟩
  · simp [update_place_view, rectYs, placeB, wrapB, accessRow, List.enum,
      accessibility_options_formatted]
    norm_num
  · simp [update_place_view, rowLabels, placeB, wrapB, accessRow, List.enum,
      accessibility_options_formatted]

/-- Helper: a row contributes four primitives when its option is true
and none otherwise. -/
lemma accessRow_length (off : ℚ) (iob : ℕ × (AccessOption × Bool)) :
    (accessRow off iob).length = if iob.2.2 then 4 else 0 := by
  rcases iob with ⟨i, o, b⟩
  cases b <;> simp [accessRow]

/-- Helper: the row block contributes four primitives per true option,
from any enumeration start. -/
lemma rows_length (off : ℚ) (l : List (AccessOption × Bool)) (k : ℕ) :
    ((List.enumFrom k l).flatMap (accessRow off)).length =
      4 * (l.filter fun p => p.2).length := by
  induction l generalizing k with
  | nil => simp
  | cons ob rest ih =>
    rcases ob with ⟨o, b⟩
    rw [List.enumFrom_cons]
    simp only [List.flatMap_cons, List.length_append, accessRow_length, ih (k + 1)]
    cases b <;> simp [List.filter_cons] <;> omega

/-- C4 amended: for every place whose name wraps to exactly 2 lines and
whose accessibility mapping has exactly 2 true entries,
`update_place_view` emits exactly 2 + 1 + 2*4 = 11 primitives, ordered
name lines, then address line, then the rows; rows iterate the place
mapping in its own order, each true option at vertical offset
`access_offset + i * 58` for `i` its `enumerate` index in the mapping
(so false entries leave gaps rather than packing the rows
consecutively). -/
theorem update_place_view_count (wrap : String → List String)
    (clat clon : ℝ) (place : Place)
    (h1 : (wrap place.displayName).length = 2)
    (h2 : (place.accessibilityOptions.filter fun p => p.2).length = 2) :
    (update_place_view wrap clat clon place).length = 11 ∧
    ∃ l1 l2, wrap place.displayName = [l1, l2] ∧
      (update_place_view wrap clat clon place).take 3 =
        [Prim.textP (1/2, 0) (120, 15) l1,
          Prim.textP (1/2, 0) (120, 35) l2,
          Prim.textP (1/2, 0) (120, 58)
            (((pySplitComma place.formattedAddress).headD "") ++ " | " ++
              toString (pyInt (haversine_distance clat clon place.latitude
                place.longitude)) ++ " m")] := by
  obtain ⟨l1, l2, hw⟩ := List.length_eq_two.mp h1
  constructor
  · simp only [update_place_view, List.length_append, List.length_map,
      List.enum_length, List.length_singleton, h1]
    rw [show place.accessibilityOptions.enum = List.enumFrom 0 place.accessibilityOptions
      from rfl]
    rw [rows_length _ _ 0, h2]
  · refine ⟨l1, l2, hw, ?_⟩
    simp only [update_place_view, hw]
    norm_num [List.enum]

/-- Witness for `update_place_view_count` at `placeB` / `wrapB`. -/
theorem update_place_view_count_witness :
    (update_place_view wrapB 0 0 placeB).length = 11 ∧
    ∃ l1 l2, wrapB placeB.displayName = [l1, l2] ∧
      (update_place_view wrapB 0 0 placeB).take 3 =
        [Prim.textP (1/2, 0) (120, 15) l1,
          Prim.textP (1/2, 0) (120, 35) l2,
          Prim.textP (1/2, 0) (120, 58)
            (((pySplitComma placeB.formattedAddress).headD "") ++ " | " ++
              toString (pyInt (haversine_distance 0 0 placeB.latitude
                placeB.longitude)) ++ " m")] :=
  update_place_view_count wrapB 0 0 placeB rfl rfl

/-- C6 amended: for every rendered place the primitive directly after
the name lines is the address text
`<first-comma-segment> | <distance> m`, where the distance is
`haversine_distance` passed through Python `int` — truncation toward
zero, not rounding to the nearest integer. -/
theorem address_line_text (wrap : String → List String) (clat clon : ℝ)
    (place : Place) :
    (update_place_view wrap clat clon place).get? (wrap place.displayName).length =
      some (Prim.textP (1/2, 0)
        (120, 15 + ((wrap place.displayName).length : ℚ) * 20 + 3)
        (((pySplitComma place.formattedAddress).headD "") ++ " | " ++
          toString (pyInt (haversine_distance clat clon place.latitude
            place.longitude)) ++ " m")) := by
  simp only [update_place_view]
  rw [List.append_assoc, List.get?_eq_getElem?,
    List.getElem?_append_right (by simp [List.enum_length])]
  simp [List.enum_length]

/-- Helper: the haversine distance from (0°, 0°) to (0°, 1°) is exactly
`6371000 * π / 180` metres. -/
lemma hav_0_0_0_1 : haversine_distance 0 0 0 1 = 6371000 * (pi / 180) := by
  have h360 : (0 : ℝ) < pi / 360 := by positivity
  have h360lt : pi / 360 < pi / 2 := by
    have := Real.pi_pos
    linarith
  have hsin : Real.sin (pi / 360) ≥ 0 :=
    Real.sin_nonneg_of_nonneg_of_le_pi (le_of_lt h360)
      (by have := Real.pi_pos; linarith)
  have hcos : 0 < Real.cos (pi / 360) :=
    Real.cos_pos_of_mem_Ioo ⟨by have := Real.pi_pos; linarith, h360lt⟩
  simp only [haversine_distance, radians]
  norm_num
  have e1 : Real.sin (pi / 180 / 2) = Real.sin (pi / 360) := by ring_nf
  have e2 : Real.sqrt (Real.sin (pi / 360) ^ 2) = Real.sin (pi / 360) :=
    Real.sqrt_sq hsin
  have e3 : (1 : ℝ) - Real.sin (pi / 360) ^ 2 = Real.cos (pi / 360) ^ 2 := by
    have := Real.sin_sq_add_cos_sq (pi / 360)
    linarith
  have e4 : Real.sqrt (Real.cos (pi / 360) ^ 2) = Real.cos (pi / 360) :=
    Real.sqrt_sq (le_of_lt hcos)
  rw [e1, e2, e3, e4]
  have e5 : atan2 (Real.sin (pi / 360)) (Real.cos (pi / 360)) = pi / 360 := by
    rw [atan2, if_pos hcos, ← Real.tan_eq_sin_div_cos,
      Real.arctan_tan (by linarith) h360lt]
  rw [e5]
  ring

/-- Helper: Python `int` of that distance is 111194 (the true value is
about 111194.93). -/
lemma pyInt_hav_0_0_0_1 : pyInt (haversine_distance 0 0 0 1) = 111194 := by
  rw [hav_0_0_0_1]
  have hp1 : (3.141592 : ℝ) < pi := Real.pi_gt_d6
  have hp2 : pi < 3.141593 := Real.pi_lt_d6
  have hd0 : (0 : ℝ) ≤ 6371000 * (pi / 180) := by positivity
  rw [pyInt, if_pos hd0]
  rw [Int.floor_eq_iff]
  constructor
  · push_cast
    nlinarith
  · push_cast
    nlinarith

/-- Helper: rounding that distance to the nearest metre gives 111195,
one more than the truncation the code performs. -/
lemma round_hav_0_0_0_1 : round (haversine_distance 0 0 0 1) = (111195 : ℤ) := by
  rw [hav_0_0_0_1, round_eq]
  have hp1 : (3.141592 : ℝ) < pi := Real.pi_gt_d6
  have hp2 : pi < 3.141593 := Real.pi_lt_d6
  rw [Int.floor_eq_iff]
  constructor
  · push_cast
    nlinarith
  · push_cast
    nlinarith

/-- A concrete place one degree of longitude east of the map centre. -/
def placeC : Place :=
  { displayName := "Cafe", formattedAddress := "1 Main St, Town",
    latitude := 0, longitude := 1, accessibilityOptions := [], x := 0, y := 0 }

/-- A concrete stand-in for the word-wrapper, producing one line. -/
def wrapC : String → List String := fun _ => ["Cafe"]

/-- C6 counterexample: for a place at (0°, 1°) with centre (0°, 0°), the
rendered address line reads `1 Main St | 111194 m` — the truncated
distance — while rounding to the nearest integer metre, as the claim
demands, gives 111195. -/
theorem address_distance_cex :
    (update_place_view wrapC 0 0 placeC).get? 1 =
      some (Prim.textP (1/2, 0) (120, 38) "1 Main St | 111194 m") ∧
    round (haversine_distance 0 0 0 1) = (111195 : ℤ) ∧
    (111194 : ℤ) ≠ 111195 := by
  refine ⟨?_, round_hav_0_0_0_1, by decide⟩
  simp only [update_place_view, wrapC, placeC]
  norm_num [List.enum]
  rw [pyInt_hav_0_0_0_1]
  decide

/-! ## C3: `geo_bounds` -/

/-- C3 counterexample: at centre latitude 60° the claim fails twice over.
With radius `6378.1 * π/2` km (angular radius 90°), `sin ρ / cos φ = 2`
leaves the domain of `asin`, so `geo_bounds` raises a math domain error
instead of returning a circle-containing box; and with radius
`6378.1 * π/6` km (angular radius 30°) and ratio 1 it returns the box
(90, 30, 90, −90), whose degree spans are 180° of longitude by 60° of
latitude — a span ratio of 3, not the claimed 1. -/
theorem geo_bounds_cex :
    geo_bounds 60 0 (6378.1 * (pi / 2)) 1 = none ∧
    geo_bounds 60 0 (6378.1 * (pi / 6)) 1 = some (90, 30, 90, -90) ∧
    ((90 : ℝ) - (-90)) = 3 * ((90 : ℝ) - 30) ∧ (3 : ℝ) ≠ 1 := by
  have hR : (6378.1 : ℝ) ≠ 0 := by norm_num
  have hr60 : radians 60 = pi / 3 := by rw [radians]; ring
  have hr0 : radians 0 = 0 := by rw [radians]; ring
  have hcos : Real.cos (radians 60) = 1 / 2 := by rw [hr60, Real.cos_pi_div_three]
  refine ⟨?_, ?_, by norm_num, by norm_num⟩
  · have hdiv : 6378.1 * (pi / 2) / 6378.1 = pi / 2 :=
      mul_div_cancel_left₀ _ hR
    simp only [geo_bounds, hdiv, hcos, Real.sin_pi_div_two]
    rw [if_neg (by norm_num), if_pos (by rw [abs_of_pos] <;> norm_num)]
  · have hdiv : 6378.1 * (pi / 6) / 6378.1 = pi / 6 :=
      mul_div_cancel_left₀ _ hR
    simp only [geo_bounds, hdiv, hcos, Real.sin_pi_div_six]
    rw [if_neg (by norm_num), if_neg (by rw [show (1:ℝ)/2/(1/2) = 1 by norm_num]; norm_num)]
    rw [if_neg (by norm_num)]
    rw [show (1:ℝ)/2/(1/2) = 1 by norm_num, Real.arcsin_one]
    rw [if_neg (show ¬(1:ℝ) < 1 by norm_num)]
    simp only [degrees, hr60, hr0]
    have hpi := Real.pi_ne_zero
    refine congrArg some ?_
    have e1 : (pi / 3 + pi / 6) * 180 / pi = 90 := by field_simp; ring
    have e2 : (pi / 3 - pi / 6) * 180 / pi = 30 := by field_simp; ring
    have e3 : (0 + pi / 2 * 1) * 180 / pi = 90 := by field_simp; ring
    have e4 : (0 - pi / 2 * 1) * 180 / pi = -90 := by field_simp; ring
    rw [e1, e2, e3, e4]

/-- C3 amended: when `cos` of the centre latitude is positive, the
`asin` argument stays in domain and the aspect ratio is at least 1,
`geo_bounds` returns a box whose degree spans satisfy
`(lonMax − lonMin) * ρ = ratio * asin (sin ρ / cos φ) * (latMax − latMin)`
with `ρ = radius / 6378.1`: the span ratio is
`ratio * asin (sin ρ / cos φ) / ρ`, which collapses to `ratio` only when
the centre is on the equator, and exceeds it elsewhere. -/
theorem geo_bounds_span_ratio (lat lon radius ratio : ℝ) (h1 : 1 ≤ ratio)
    (hc : 0 < Real.cos (radians lat))
    (hs : |Real.sin (radius / 6378.1) / Real.cos (radians lat)| ≤ 1) :
    ∃ max_lat min_lat max_lon min_lon,
      geo_bounds lat lon radius ratio = some (max_lat, min_lat, max_lon, min_lon) ∧
      (max_lon - min_lon) * (radius / 6378.1) =
        ratio * Real.arcsin (Real.sin (radius / 6378.1) / Real.cos (radians lat)) *
          (max_lat - min_lat) := by
  refine ⟨degrees (radians lat + radius / 6378.1),
    degrees (radians lat - radius / 6378.1),
    degrees (radians lon +
      Real.arcsin (Real.sin (radius / 6378.1) / Real.cos (radians lat)) * ratio),
    degrees (radians lon -
      Real.arcsin (Real.sin (radius / 6378.1) / Real.cos (radians lat)) * ratio),
    ?_, ?_⟩
  · simp only [geo_bounds]
    rw [if_neg (ne_of_gt hc), if_neg (not_lt.mpr hs),
      if_neg (not_lt.mpr h1), if_neg (not_lt.mpr h1)]
  · simp only [degrees]
    have hpi := Real.pi_ne_zero
    field_simp
    ring

/-- Witness for `geo_bounds_span_ratio` at centre latitude 60°, angular
radius `π/6` and ratio 1. -/
theorem geo_bounds_span_ratio_witness :
    ∃ max_lat min_lat max_lon min_lon,
      geo_bounds 60 0 (6378.1 * (pi / 6)) 1 = some (max_lat, min_lat, max_lon, min_lon) ∧
      (max_lon - min_lon) * (6378.1 * (pi / 6) / 6378.1) =
        1 * Real.arcsin (Real.sin (6378.1 * (pi / 6) / 6378.1) /
          Real.cos (radians 60)) * (max_lat - min_lat) :=
  geo_bounds_span_ratio 60 0 (6378.1 * (pi / 6)) 1 le_rfl
    (by
      rw [show radians 60 = pi / 3 by rw [radians]; ring, Real.cos_pi_div_three]
      norm_num)
    (by
      rw [show 6378.1 * (pi / 6) / 6378.1 = pi / 6 from
          mul_div_cancel_left₀ _ (by norm_num),
        show radians 60 = pi / 3 by rw [radians]; ring,
        Real.cos_pi_div_three, Real.sin_pi_div_six]
      norm_num)

/-! ## C7: `calc_pixel_coordinate` -/

/-- Helper: truncation toward zero is monotone. -/
lemma pyInt_mono {x y : ℝ} (h : x ≤ y) : pyInt x ≤ pyInt y := by
  unfold pyInt
  by_cases hx : (0 : ℝ) ≤ x
  · rw [if_pos hx, if_pos (le_trans hx h)]
    exact Int.floor_le_floor h
  · by_cases hy : (0 : ℝ) ≤ y
    · rw [if_neg hx, if_pos hy]
      have h1 : (0 : ℤ) ≤ ⌊y⌋ := Int.floor_nonneg.mpr hy
      have h2 : (0 : ℤ) ≤ ⌊-x⌋ := Int.floor_nonneg.mpr (by linarith [not_le.mp hx])
      omega
    · rw [if_neg hx, if_neg hy]
      have := Int.floor_le_floor (neg_le_neg h)
      omega

/-- Helper: truncation fixes integers. -/
lemma pyInt_intCast (n : ℤ) : pyInt (n : ℝ) = n := by
  unfold pyInt
  by_cases h : (0 : ℝ) ≤ (n : ℝ)
  · rw [if_pos h, Int.floor_intCast]
  · rw [if_neg h, show -(n : ℝ) = ((-n : ℤ) : ℝ) by push_cast; ring,
      Int.floor_intCast]
    omega

/-- Helper: truncation of zero. -/
lemma pyInt_zero : pyInt 0 = 0 := by
  simpa using pyInt_intCast 0

/-- Helper: the Mercator transform `ln (tan (π/4 + lat/2))` is strictly
increasing on latitudes in (−90°, 90°). -/
lemma merc_strict_mono {a b : ℝ} (ha : -90 < a) (hab : a < b) (hb : b < 90) :
    Real.log (Real.tan (pi / 4 + radians a / 2)) <
      Real.log (Real.tan (pi / 4 + radians b / 2)) := by
  have hpi := Real.pi_pos
  have hA0 : 0 < pi / 4 + radians a / 2 := by
    rw [radians]
    nlinarith
  have hB2 : pi / 4 + radians b / 2 < pi / 2 := by
    rw [radians]
    nlinarith
  have hAB : pi / 4 + radians a / 2 < pi / 4 + radians b / 2 := by
    rw [radians, radians]
    nlinarith
  have htanA : 0 < Real.tan (pi / 4 + radians a / 2) :=
    Real.tan_pos_of_pos_of_lt_pi_div_two hA0 (lt_trans hAB hB2)
  have htan : Real.tan (pi / 4 + radians a / 2) < Real.tan (pi / 4 + radians b / 2) := by
    apply Real.strictMonoOn_tan
    · constructor <;> [linarith; linarith]
    · constructor <;> [linarith; exact hB2]
    · exact hAB
  exact Real.log_lt_log htanA htan

/-- C7: for a bounding box with latitudes inside (−90°, 90°) and
`lonMin < lonMax`, `calc_pixel_coordinate` is non-decreasing in longitude
in its x output and non-increasing in latitude in its y output (north
maps to smaller y), and the box's own four corners project exactly onto
the image corners `(0, 0)`, `(width, 0)`, `(0, height)`,
`(width, height)`. -/
theorem calc_pixel_coordinate_props (image_width image_height : ℤ)
    (lat_min lat_max lon_min lon_max : ℝ)
    (h1 : -90 < lat_min) (h2 : lat_min < lat_max) (h3 : lat_max < 90)
    (h4 : lon_min < lon_max) (hw : 0 ≤ image_width) (hh : 0 ≤ image_height) :
    (∀ lat lon lon1, lon ≤ lon1 →
      (calc_pixel_coordinate lat lon image_width image_height
          lat_min lat_max lon_min lon_max).1 ≤
        (calc_pixel_coordinate lat lon1 image_width image_height
          lat_min lat_max lon_min lon_max).1) ∧
    (∀ lat lat1 lon, -90 < lat → lat ≤ lat1 → lat1 < 90 →
      (calc_pixel_coordinate lat1 lon image_width image_height
          lat_min lat_max lon_min lon_max).2 ≤
        (calc_pixel_coordinate lat lon image_width image_height
          lat_min lat_max lon_min lon_max).2) ∧
    calc_pixel_coordinate lat_max lon_min image_width image_height
      lat_min lat_max lon_min lon_max = (0, 0) ∧
    calc_pixel_coordinate lat_max lon_max image_width image_height
      lat_min lat_max lon_min lon_max = (image_width, 0) ∧
    calc_pixel_coordinate lat_min lon_min image_width image_height
      lat_min lat_max lon_min lon_max = (0, image_height) ∧
    calc_pixel_coordinate lat_min lon_max image_width image_height
      lat_min lat_max lon_min lon_max = (image_width, image_height) := by
  have hdl : 0 < lon_max - lon_min := by linarith
  have hmm : Real.log (Real.tan (pi / 4 + radians lat_min / 2)) <
      Real.log (Real.tan (pi / 4 + radians lat_max / 2)) :=
    merc_strict_mono h1 h2 h3
  have hwR : (0 : ℝ) ≤ (image_width : ℝ) := by exact_mod_cast hw
  have hhR : (0 : ℝ) ≤ (image_height : ℝ) := by exact_mod_cast hh
  have xval : ∀ lon : ℝ, map_range lon lon_min lon_max 0 (image_width : ℝ) =
      (lon - lon_min) / (lon_max - lon_min) * (image_width : ℝ) := by
    intro lon
    rw [map_range]
    ring
  have yval : ∀ m : ℝ,
      map_range m (Real.log (Real.tan (pi / 4 + radians lat_max / 2)))
        (Real.log (Real.tan (pi / 4 + radians lat_min / 2))) 0 (image_height : ℝ) =
      (Real.log (Real.tan (pi / 4 + radians lat_max / 2)) - m) /
        (Real.log (Real.tan (pi / 4 + radians lat_max / 2)) -
          Real.log (Real.tan (pi / 4 + radians lat_min / 2))) * (image_height : ℝ) := by
    intro m
    rw [map_range]
    generalize Real.log (Real.tan (pi / 4 + radians lat_max / 2)) = A
    generalize Real.log (Real.tan (pi / 4 + radians lat_min / 2)) = B
    rw [show A - m = -(m - A) by ring, show A - B = -(B - A) by ring,
      neg_div_neg_eq]
    ring
  refine ⟨?_, ?_, ?_, ?_, ?_, ?_⟩
  · intro lat lon lon1 hlon
    apply pyInt_mono
    rw [xval, xval]
    gcongr
  · intro lat lat1 lon hla hlat hlb
    apply pyInt_mono
    rw [yval, yval]
    have hm : Real.log (Real.tan (pi / 4 + radians lat / 2)) ≤
        Real.log (Real.tan (pi / 4 + radians lat1 / 2)) := by
      rcases eq_or_lt_of_le hlat with heq | hlt
      · rw [heq]
      · exact le_of_lt (merc_strict_mono hla hlt hlb)
    gcongr
    linarith
  · simp only [calc_pixel_coordinate, xval, yval]
    rw [sub_self, zero_div, zero_mul, pyInt_zero, sub_self, zero_div, zero_mul,
      pyInt_zero]
  · simp only [calc_pixel_coordinate, xval, yval]
    rw [div_self (ne_of_gt hdl), one_mul, pyInt_intCast, sub_self, zero_div,
      zero_mul, pyInt_zero]
  · simp only [calc_pixel_coordinate, xval, yval]
    rw [sub_self, zero_div, zero_mul, pyInt_zero,
      div_self (by linarith : Real.log (Real.tan (pi / 4 + radians lat_max / 2)) -
        Real.log (Real.tan (pi / 4 + radians lat_min / 2)) ≠ 0), one_mul,
      pyInt_intCast]
  · simp only [calc_pixel_coordinate, xval, yval]
    rw [div_self (ne_of_gt hdl), one_mul, pyInt_intCast,
      div_self (by linarith : Real.log (Real.tan (pi / 4 + radians lat_max / 2)) -
        Real.log (Real.tan (pi / 4 + radians lat_min / 2)) ≠ 0), one_mul,
      pyInt_intCast]

/-- Witness for `calc_pixel_coordinate_props` on a concrete box and the
display's 240 x 320 image size. -/
theorem calc_pixel_coordinate_props_witness :
    calc_pixel_coordinate 10 0 240 320 0 10 0 10 = (0, 0) :=
  (calc_pixel_coordinate_props 240 320 0 10 0 10 (by norm_num) (by norm_num)
    (by norm_num) (by norm_num) (by norm_num) (by norm_num)).2.2.1
